import Mathlib

/-!
# Request pipeline and liveness monitor of the capybara API (`main.go`)

A shallow embedding of `main.go`: the liveness loop `ping`, and the chain of
handlers registered with `app.Use` / `app.Get` in `main`, in registration
order: recover, logger, CORS, limiter, visit counter, routes.

A handler is a function from the environment of one request (clock reading,
outcome of the store command, content provider) and the server state to an
outcome and a new state.  A Go panic is an outcome of its own: it skips the
rest of every handler it unwinds through, until a handler with a deferred
`recover()` turns it into an error.

What `main.go` imports and does not define is marked as such on the
definition that stands for it.
-/

namespace Capybara

/-! ## Data model -/

/-- One second as a `time.Duration` (nanoseconds). -/
def Second : Nat := 1000000000

/-- Peer address of the connection (`RemoteAddr`), an IPv4 address. -/
structure IPv4 where
  a : Nat
  b : Nat
  c : Nat
  d : Nat
deriving DecidableEq, Repr

/-- Dotted form of an address, as a rate-limit key would carry it. -/
def IPv4.dotted (ip : IPv4) : String :=
  toString ip.a ++ "." ++ toString ip.b ++ "." ++ toString ip.c ++ "." ++ toString ip.d

/-- The body type `utils.Response` used by `main.go`: fields `Success` and
`Message`. -/
structure Response where
  Success : Bool
  Message : String
deriving DecidableEq, Repr

/-- Body of an HTTP reply. -/
inductive Body where
  | empty
  | json (r : Response)
  | text (s : String)
deriving DecidableEq, Repr

/-- Status and body held by a `fiber.Ctx` while a request is handled. -/
structure Reply where
  status : Nat
  body : Body
deriving DecidableEq, Repr

/-- A new `fiber.Ctx` answers 200 with an empty body until a handler writes. -/
def Reply.init : Reply := ⟨200, Body.empty⟩

/-- An incoming request: peer address, method, path and header fields in
arrival order, names in the canonical form the server gives them. -/
structure Request where
  peer : IPv4
  method : String
  path : String
  headers : List (String × String)
deriving DecidableEq, Repr

/-- A Go `error` as the error handler sees it: a `*fiber.Error` with its
status code, or any other error. -/
inductive Err where
  | fiber (code : Nat) (msg : String)
  | other (msg : String)
deriving DecidableEq, Repr

/-- Text of `err.Error()`. -/
def Err.msg : Err → String
  | Err.fiber _ m => m
  | Err.other m => m

/-- The routes registered in `main`, named by handler; `/capyhour` and
`/capyofthehour` share `v1.GetCapyHour`. -/
inductive Route where
  | root
  | v1Root
  | GetCapybaras
  | GetCapybara
  | GetCapybaraByIndex
  | GetCapybaraOfTheDay
  | GetCapyHour
  | GetCapyFact
  | GetCapyFacts
deriving DecidableEq, Repr

/-- What a handler of package `v1` does with a request: write a reply and
return nil, return an error, or panic. -/
inductive HandlerResult where
  | respond (r : Reply)
  | fail (e : Err)
  | panic (v : String)
deriving DecidableEq, Repr

/-- Rate Bucket of one key. -/
structure Bucket where
  count : Nat
  windowExpiry : Nat
deriving DecidableEq, Repr

/-- Commands and calls issued while one request is handled, in order. -/
inductive Event where
  | limiterNext (key : String)
  | limitReached (key : String)
  | incr (key : String)
  | route (r : Route)
deriving DecidableEq, Repr

/-- One line of the access log: `status`, `ip`, `ua`, `method`, `path` of the
logger format (`time` and `latency` are wall-clock readings and left out). -/
structure AccessRecord where
  status : Nat
  ip : IPv4
  ua : String
  method : String
  path : String
deriving DecidableEq, Repr

/-- Server state.  `resp` and `trace` belong to the request being handled;
the other fields live as long as the process (`visits` in the store). -/
structure St where
  resp : Reply
  trace : List Event
  buckets : String → Option Bucket
  visits : Nat
  accessLog : List AccessRecord
  stderr : List String
  crashed : Bool

/-- State of a process that has served nothing yet. -/
def St.init : St := ⟨Reply.init, [], fun _ => none, 0, [], [], false⟩

/-- What surrounds the handling of one request.
`now` is the clock reading the limiter takes (in nanoseconds, the unit of
`time.Duration`), `incrErr` the error of
`rdb.Incr(...)` (`none` when the command succeeds), `containerId` the host
name read at start-up.  `preflight`, `matchRoute` and `provider` stand for
code outside `main.go`: which requests the CORS middleware answers itself,
which route the router selects, and what the handlers of package `v1` do. -/
structure Env where
  now : Nat
  incrErr : Option String
  containerId : String
  preflight : Request → Bool
  matchRoute : Request → Option Route
  provider : Route → Request → HandlerResult

/-- How a handler call ends: it returns an error value (nil or not), or it
panics. -/
inductive Outcome where
  | returned (err : Option Err)
  | panicked (v : String)
deriving DecidableEq, Repr

/-- A `fiber.Handler` with the rest of the chain already bound. -/
abbrev Handler := Env → Request → St → Outcome × St

/-! ## Configuration constants of `main` -/

/-- Limiter setting `Max: 500`. -/
def Max : Nat := 500

/-- Limiter setting `Expiration: 30 * time.Second`. -/
def Expiration : Nat := 30 * Second

/-- App setting `TrustedProxies: []string{"10.50.0.0/24"}` (with
`EnableTrustedProxyCheck: true`): membership of the range. -/
def TrustedProxies (ip : IPv4) : Bool :=
  ip.a == 10 && ip.b == 50 && ip.c == 0 && ip.d < 256

/-! ## Limiter configuration (`limiter.New`, lines 85-97) -/

/-- Result of `c.GetReqHeaders()`: the header fields as a Go map from name to value; a
later field of the same name overwrites an earlier one, and a name that is
absent reads as the empty string. -/
def GetReqHeaders (req : Request) : String → String :=
  req.headers.foldl (fun m kv => Function.update m kv.1 kv.2) (fun _ => "")

/-- Limiter setting `KeyGenerator`: `return c.GetReqHeaders()["X-Forwarded-For"]`. -/
def KeyGenerator (req : Request) : String :=
  GetReqHeaders req "X-Forwarded-For"

/-- Limiter setting `LimitReached`: `c.Status(429).JSON(utils.Response{Success: false,
Message: "You are being rate limited"})`. -/
def LimitReached : Handler := fun _ _ st =>
  (Outcome.returned none,
    { st with resp := ⟨429, Body.json ⟨false, "You are being rate limited"⟩⟩ })

/-- Modelled from the spec: the fixed-window step of the limiter middleware
(package `github.com/gofiber/fiber/v2/middleware/limiter`, imported by
`main.go`, source not in the repository).  Look up or create the bucket; a new
bucket starts a window at `now`; if `now > windowExpiry`, reset `count` to 0
and `windowExpiry` to `now + W`; increment `count`; reject when the
post-increment `count` exceeds `M`.  Returns the bucket to store and whether
the request is rejected. -/
def limiterStep (b : Option Bucket) (now : Nat) : Bucket × Bool :=
  let b0 : Bucket :=
    match b with
    | none => ⟨0, now + Expiration⟩
    | some b => if now > b.windowExpiry then ⟨0, now + Expiration⟩ else b
  let b1 : Bucket := { b0 with count := b0.count + 1 }
  (b1, decide (b1.count > Max))

/-- Modelled from the spec: the handler returned by `limiter.New(cfg)` (same
package, source not in the repository): one step on the bucket of the
request's key, then `cfg.LimitReached` at once on rejection, without the next
handler, and the next handler otherwise. -/
def limiterMW (next : Handler) : Handler := fun env req st =>
  let key := KeyGenerator req
  let r := limiterStep (st.buckets key) env.now
  let st1 : St := { st with buckets := Function.update st.buckets key (some r.1) }
  if r.2 then
    LimitReached env req { st1 with trace := st1.trace ++ [Event.limitReached key] }
  else
    next env req { st1 with trace := st1.trace ++ [Event.limiterNext key] }

/-! ## The other stages -/

/-- Error handler of the app, `fiber.DefaultErrorHandler` (`main` configures
no `ErrorHandler`): status 500 unless the error is a `*fiber.Error`, body
`err.Error()`. -/
def errorHandler (e : Err) (st : St) : St :=
  match e with
  | Err.fiber code _ => { st with resp := ⟨code, Body.text e.msg⟩ }
  | Err.other _ => { st with resp := ⟨500, Body.text e.msg⟩ }

/-- The handler of `recover.New` with `EnableStackTrace: true` (package
`github.com/gofiber/fiber/v2/middleware/recover`, source not in the
repository, given here as the library behaves): a deferred `recover()` around
`c.Next()`; a recovered panic value is printed with the stack trace to
standard error and returned as an error carrying the value's text. -/
def recoverMW (next : Handler) : Handler := fun env req st =>
  match next env req st with
  | (Outcome.panicked v, s) =>
      (Outcome.returned (some (Err.other v)), { s with stderr := s.stderr ++ ["panic: " ++ v] })
  | (Outcome.returned e, s) => (Outcome.returned e, s)

/-- Field `User-Agent` of the request, for the access log. -/
def userAgent (req : Request) : String :=
  GetReqHeaders req "User-Agent"

/-- The handler of `logger.New` (package
`github.com/gofiber/fiber/v2/middleware/logger`, source not in the repository,
given here as the library behaves): `chainErr := c.Next()`, then the error
handler on a non-nil `chainErr`, then one record, then `return nil`.  The
record is written by the code after `c.Next()`, with no deferred call, so a
panic in `c.Next()` leaves the handler before it. -/
def loggerMW (next : Handler) : Handler := fun env req st =>
  match next env req st with
  | (Outcome.panicked v, s) => (Outcome.panicked v, s)
  | (Outcome.returned chainErr, s) =>
      let s1 : St :=
        match chainErr with
        | none => s
        | some e => errorHandler e s
      (Outcome.returned none,
        { s1 with accessLog := s1.accessLog ++
            [⟨s1.resp.status, req.peer, userAgent req, req.method, req.path⟩] })

/-- Modelled from the spec: the CORS middleware (package
`github.com/gofiber/fiber/v2/middleware/cors`, source not in the repository)
answers preflight-style requests itself, with 204 and no body, and hands every
other request to the next handler. -/
def corsMW (next : Handler) : Handler := fun env req st =>
  if env.preflight req then
    (Outcome.returned none, { st with resp := ⟨204, Body.empty⟩ })
  else
    next env req st

/-- The visit counter (lines 99-107): `rdb.Incr(ctx, "visits")`, print the
error if there is one, `return c.Next()`. -/
def visitMW (next : Handler) : Handler := fun env req st =>
  let st1 : St := { st with trace := st.trace ++ [Event.incr "visits"] }
  match env.incrErr with
  | some e => next env req { st1 with stderr := st1.stderr ++ [e] }
  | none => next env req { st1 with visits := st1.visits + 1 }

/-- The routes of `main`: `/` and `/v1/` answer from `main.go`, the others
call package `v1`; with no matching route the router returns a 404
`*fiber.Error`. -/
def router : Handler := fun env req st =>
  match env.matchRoute req with
  | none =>
      (Outcome.returned (some (Err.fiber 404 ("Cannot " ++ req.method ++ " " ++ req.path))), st)
  | some r =>
      let st1 : St := { st with trace := st.trace ++ [Event.route r] }
      match r with
      | Route.root =>
          let msg := "ok you pull up (Powered by hop.io) " ++ env.containerId
          (Outcome.returned none, { st1 with resp := ⟨st1.resp.status, Body.json ⟨true, msg⟩⟩ })
      | Route.v1Root =>
          let msg := "welcome to v1 of capybara heaven (Powered by hop.io) " ++ env.containerId
          (Outcome.returned none, { st1 with resp := ⟨st1.resp.status, Body.json ⟨true, msg⟩⟩ })
      | r =>
          match env.provider r req with
          | HandlerResult.respond rep => (Outcome.returned none, { st1 with resp := rep })
          | HandlerResult.fail e => (Outcome.returned (some e), st1)
          | HandlerResult.panic v => (Outcome.panicked v, st1)

/-! ## The chain as registered in `main` -/

/-- What the limiter hands on to: visit counter, then routes. -/
def afterLimiter : Handler := visitMW router

/-- What the logger wraps: CORS, limiter, visit counter, routes. -/
def afterLogger : Handler := corsMW (limiterMW afterLimiter)

/-- The whole chain: recover, logger, CORS, limiter, visit counter, routes. -/
def pipeline : Handler := recoverMW (loggerMW afterLogger)

/-- Context of a request that has just arrived. -/
def St.fresh (st : St) : St := { st with resp := Reply.init, trace := [] }

/-- Handling of one request by the app: a new context, the chain, the error
handler on a returned error; a panic that leaves the chain ends the
process. -/
def app (env : Env) (req : Request) (st : St) : St :=
  match pipeline env req st.fresh with
  | (Outcome.returned none, s) => s
  | (Outcome.returned (some e), s) => errorHandler e s
  | (Outcome.panicked _, s) => { s with crashed := true }

/-- Requests served one after the other, each with its own environment. -/
def serve (st : St) : List (Env × Request) → St
  | [] => st
  | p :: rest => serve (app p.1 p.2 st) rest

/-- Events the routes add to the trace of a request: the handler called, if a
route matches. -/
def routeEvents (env : Env) (req : Request) : List Event :=
  match env.matchRoute req with
  | none => []
  | some r => [Event.route r]

/-! ## Liveness monitor (`ping`, lines 21-30) -/

/-- State of the monitor's process: lines written by `log`, probes issued, and
the exit code once `log.Fatal` has ended the process. -/
structure PingState where
  log : List String
  probes : Nat
  exited : Option Nat
deriving DecidableEq, Repr

/-- Start of the monitor. -/
def PingState.init : PingState := ⟨[], 0, none⟩

/-- The loop of `ping` over the ticks of `time.Tick`, one probe outcome per
tick (`none`: `Ping` returned no error; `some e`: it returned error `e`).
Each tick logs "Pinging" and probes; on an error `log.Fatal` writes it and
exits with status 1, so nothing after it runs. -/
def ping : List (Option String) → PingState → PingState
  | [], s => s
  | o :: rest, s =>
      let s1 : PingState := { s with log := s.log ++ ["Pinging"], probes := s.probes + 1 }
      match o with
      | none => ping rest s1
      | some e => { s1 with log := s1.log ++ [e], exited := some 1 }

/-! ## Reference definitions and sample inputs -/

/-- The Trusted-Origin Resolver as the specification words it: the forwarded
header value when the peer lies in the trusted range, the peer address
otherwise. -/
def specCallerIdentity (req : Request) : String :=
  if TrustedProxies req.peer then GetReqHeaders req "X-Forwarded-For" else req.peer.dotted

/-- Conditions on a request of a run on one key: the key generator gives it
that key, and the CORS stage hands it on, so that it reaches the limiter. -/
def onKey (key : String) (q : Env × Request) : Prop :=
  KeyGenerator q.2 = key ∧ q.1.preflight q.2 = false

/-- Requests counted for one key since the current window of its bucket
began. -/
structure Tally where
  admitted : Nat
  rejected : Nat
deriving DecidableEq, Repr

/-- Whether the bucket found after a request continues the window of the
bucket found before it: a reset moves the expiry, a creation has no bucket
before. -/
def sameWindow (old new : Option Bucket) : Bool :=
  match old, new with
  | some o, some n => o.windowExpiry == n.windowExpiry
  | _, _ => false

/-- Update of a key's tally by one handled request, read off the states before
and after it: start again from zero when a new window began, then count the
request under the limiter's verdict on it, if the limiter saw it under this
key. -/
def tallyStep (key : String) (t : Tally) (before after : St) : Tally :=
  let base : Tally := if sameWindow (before.buckets key) (after.buckets key) then t else ⟨0, 0⟩
  if Event.limiterNext key ∈ after.trace then ⟨base.admitted + 1, base.rejected⟩
  else if Event.limitReached key ∈ after.trace then ⟨base.admitted, base.rejected + 1⟩
  else t

/-- Tally of a key along a run of `serve`. -/
def tally (key : String) : St → Tally → List (Env × Request) → Tally
  | _, t, [] => t
  | st, t, p :: rest => tally key (app p.1 p.2 st) (tallyStep key t st (app p.1 p.2 st)) rest

/-- An environment at clock reading 0 in which the store answers, no request
is a preflight, every request goes to `v1.GetCapyFact`, and that handler
answers 200 with a fact. -/
def sampleEnv : Env :=
  { now := 0
    incrErr := none
    containerId := "c0"
    preflight := fun _ => false
    matchRoute := fun _ => some Route.GetCapyFact
    provider := fun _ _ => HandlerResult.respond ⟨200, Body.text "capybaras are rodents"⟩ }

/-- As `sampleEnv`, with a `v1.GetCapyFact` that panics. -/
def panicEnv : Env :=
  { sampleEnv with provider := fun _ _ => HandlerResult.panic "boom" }

/-- A request from a peer outside 10.50.0.0/24 that names another address in
`X-Forwarded-For`. -/
def spoofedRequest : Request :=
  ⟨⟨203, 0, 113, 7⟩, "GET", "/v1/fact", [("X-Forwarded-For", "1.2.3.4")]⟩

/-- A request without `X-Forwarded-For`. -/
def plainRequest (peer : IPv4) : Request :=
  ⟨peer, "GET", "/v1/fact", [("User-Agent", "curl")]⟩

/-- The clock reading of `sampleEnv` moved to `t`. -/
def sampleEnvAt (t : Nat) : Env := { sampleEnv with now := t }

/-- A state whose bucket for "1.2.3.4" stands at 700 hits in a window that
ended at the 30th second. -/
def staleState : St :=
  { St.init with buckets := fun k => if k = "1.2.3.4" then some ⟨700, 30 * Second⟩ else none }

/-- Two states that differ at most in what the store holds and in what was
printed to standard error. -/
def agree (s s' : St) : Prop :=
  s.resp = s'.resp ∧ s.trace = s'.trace ∧ s.buckets = s'.buckets ∧
    s.accessLog = s'.accessLog ∧ s.crashed = s'.crashed

/-- Two handler results with the same outcome and agreeing states. -/
def agreeOut (x y : Outcome × St) : Prop :=
  x.1 = y.1 ∧ agree x.2 y.2

/-- What ties a key's tally to its bucket: no bucket, nothing counted; with a
bucket, `count` is the sum of the tally and the admitted part is `count`
capped at `Max`. -/
def tallyInv (key : String) (st : St) (t : Tally) : Prop :=
  match st.buckets key with
  | none => t = ⟨0, 0⟩
  | some b => b.count = t.admitted + t.rejected ∧ t.admitted = min b.count Max

/-! ## Lemmas on the chain -/

section chain

variable (env : Env) (req : Request) (st : St)

@[simp]
theorem errorHandler_buckets (e : Err) : (errorHandler e st).buckets = st.buckets := by
  cases e <;> rfl

@[simp]
theorem errorHandler_trace (e : Err) : (errorHandler e st).trace = st.trace := by
  cases e <;> rfl

@[simp]
theorem errorHandler_accessLog (e : Err) :
    (errorHandler e st).accessLog = st.accessLog := by
  cases e <;> rfl

@[simp]
theorem errorHandler_visits (e : Err) : (errorHandler e st).visits = st.visits := by
  cases e <;> rfl

@[simp]
theorem errorHandler_stderr (e : Err) : (errorHandler e st).stderr = st.stderr := by
  cases e <;> rfl

@[simp]
theorem errorHandler_crashed (e : Err) : (errorHandler e st).crashed = st.crashed := by
  cases e <;> rfl

/-- The routes leave the buckets alone, add their event to the trace and
write nothing to the access log. -/
theorem router_frame :
    (router env req st).2.buckets = st.buckets ∧
    (router env req st).2.trace = st.trace ++ routeEvents env req ∧
    (router env req st).2.accessLog = st.accessLog ∧
    (router env req st).2.visits = st.visits ∧
    (router env req st).2.stderr = st.stderr ∧
    (router env req st).2.crashed = st.crashed := by
  unfold router routeEvents
  cases env.matchRoute req with
  | none => simp
  | some r =>
    cases r <;> simp <;> cases env.provider _ req <;> simp

/-- The visit counter and the routes: one `INCR`, then the route's event. -/
theorem afterLimiter_frame :
    (afterLimiter env req st).2.buckets = st.buckets ∧
    (afterLimiter env req st).2.trace = st.trace ++ Event.incr "visits" :: routeEvents env req ∧
    (afterLimiter env req st).2.accessLog = st.accessLog ∧
    (afterLimiter env req st).2.crashed = st.crashed := by
  unfold afterLimiter visitMW
  cases env.incrErr with
  | none =>
    have h := router_frame env req
      { st with trace := st.trace ++ [Event.incr "visits"], visits := st.visits + 1 }
    simp_all
  | some e =>
    have h := router_frame env req
      { st with trace := st.trace ++ [Event.incr "visits"], stderr := st.stderr ++ [e] }
    simp_all

/-- When the chain under the logger returns, the app's state is the logger's:
error handler on a non-nil error, then one access record. -/
theorem app_of_returned (chainErr : Option Err) (s : St)
    (h : afterLogger env req st.fresh = (Outcome.returned chainErr, s)) :
    app env req st =
      { (match chainErr with | none => s | some e => errorHandler e s) with
        accessLog := (match chainErr with | none => s | some e => errorHandler e s).accessLog ++
          [⟨(match chainErr with | none => s | some e => errorHandler e s).resp.status,
            req.peer, userAgent req, req.method, req.path⟩] } := by
  simp [app, pipeline, recoverMW, loggerMW, h]

/-- When the chain under the logger panics, the logger is skipped: recover
prints the panic and the app's error handler answers. -/
theorem app_of_panicked (v : String) (s : St)
    (h : afterLogger env req st.fresh = (Outcome.panicked v, s)) :
    app env req st =
      errorHandler (Err.other v) { s with stderr := s.stderr ++ ["panic: " ++ v] } := by
  simp [app, pipeline, recoverMW, loggerMW, h]

/-- Nothing above the CORS stage touches the buckets or the trace. -/
theorem app_frame :
    (app env req st).buckets = (afterLogger env req st.fresh).2.buckets ∧
    (app env req st).trace = (afterLogger env req st.fresh).2.trace := by
  rcases h : afterLogger env req st.fresh with ⟨o, s⟩
  cases o with
  | returned chainErr =>
    rw [app_of_returned env req st chainErr s h]
    cases chainErr <;> simp
  | panicked v =>
    rw [app_of_panicked env req st v s h]
    simp

/-- A rejecting limiter step ends the chain with `LimitReached`. -/
theorem limiterMW_rejects (next : Handler)
    (h : (limiterStep (st.buckets (KeyGenerator req)) env.now).2 = true) :
    limiterMW next env req st =
      (Outcome.returned none,
        { st with
          resp := ⟨429, Body.json ⟨false, "You are being rate limited"⟩⟩
          trace := st.trace ++ [Event.limitReached (KeyGenerator req)]
          buckets := Function.update st.buckets (KeyGenerator req)
            (some (limiterStep (st.buckets (KeyGenerator req)) env.now).1) }) := by
  simp [limiterMW, h, LimitReached]

/-- An admitting limiter step hands the request to the next handler. -/
theorem limiterMW_passes (next : Handler)
    (h : (limiterStep (st.buckets (KeyGenerator req)) env.now).2 = false) :
    limiterMW next env req st =
      next env req
        { st with
          trace := st.trace ++ [Event.limiterNext (KeyGenerator req)]
          buckets := Function.update st.buckets (KeyGenerator req)
            (some (limiterStep (st.buckets (KeyGenerator req)) env.now).1) } := by
  simp [limiterMW, h]

/-- A request the CORS stage answers itself never reaches the limiter. -/
theorem app_preflight (h : env.preflight req = true) :
    (app env req st).buckets = st.buckets ∧ (app env req st).trace = [] := by
  have hf := app_frame env req st
  simp [afterLogger, corsMW, h, St.fresh] at hf
  exact hf

/-- Every other request takes one limiter step on the bucket of its key. -/
theorem app_buckets (h : env.preflight req = false) :
    (app env req st).buckets =
      Function.update st.buckets (KeyGenerator req)
        (some (limiterStep (st.buckets (KeyGenerator req)) env.now).1) := by
  rw [(app_frame env req st).1]
  simp only [afterLogger, corsMW, h, Bool.false_eq_true, if_false]
  cases hr : (limiterStep (st.fresh.buckets (KeyGenerator req)) env.now).2 with
  | true => rw [limiterMW_rejects env req st.fresh _ hr]; rfl
  | false =>
    rw [limiterMW_passes env req st.fresh _ hr, (afterLimiter_frame env req _).1]; rfl

/-- Trace and reply of a request the limiter rejects. -/
theorem app_rejected (h : env.preflight req = false)
    (hr : (limiterStep (st.buckets (KeyGenerator req)) env.now).2 = true) :
    (app env req st).trace = [Event.limitReached (KeyGenerator req)] ∧
    (app env req st).resp = ⟨429, Body.json ⟨false, "You are being rate limited"⟩⟩ ∧
    (app env req st).visits = st.visits := by
  have hl := limiterMW_rejects env req st.fresh afterLimiter hr
  have hc : afterLogger env req st.fresh = limiterMW afterLimiter env req st.fresh := by
    simp [afterLogger, corsMW, h]
  rw [app_of_returned env req st _ _ (hc.trans hl)]
  simp [St.fresh]

/-- Trace of a request the limiter admits. -/
theorem app_admitted (h : env.preflight req = false)
    (hr : (limiterStep (st.buckets (KeyGenerator req)) env.now).2 = false) :
    (app env req st).trace =
      Event.limiterNext (KeyGenerator req) :: Event.incr "visits" :: routeEvents env req := by
  rw [(app_frame env req st).2]
  simp only [afterLogger, corsMW, h, Bool.false_eq_true, if_false]
  rw [limiterMW_passes env req st.fresh _ hr, (afterLimiter_frame env req _).2.1]
  simp [St.fresh]

end chain

/-! ## Lemmas on the limiter step -/

theorem limiterStep_none (now : Nat) :
    limiterStep none now = (⟨1, now + Expiration⟩, false) := by
  simp [limiterStep, Max]

theorem limiterStep_expired (b : Bucket) (now : Nat) (h : now > b.windowExpiry) :
    limiterStep (some b) now = (⟨1, now + Expiration⟩, false) := by
  simp [limiterStep, Max, h]

theorem limiterStep_active (c x now : Nat) (h : now ≤ x) :
    limiterStep (some ⟨c, x⟩) now = (⟨c + 1, x⟩, decide (c + 1 > Max)) := by
  simp [limiterStep, Nat.not_lt.mpr h]

/-- Requests on one key inside the bucket's window add one to `count` each
and leave the expiry where it is. -/
theorem serve_active (key : String) (x : Nat) (reqs : List (Env × Request)) :
    ∀ (st : St) (c : Nat), st.buckets key = some ⟨c, x⟩ →
      (∀ q ∈ reqs, onKey key q ∧ q.1.now ≤ x) →
      (serve st reqs).buckets key = some ⟨c + reqs.length, x⟩ := by
  induction reqs with
  | nil => intro st c hb _; simpa [serve] using hb
  | cons q rest ih =>
    intro st c hb hall
    obtain ⟨⟨hk, hp⟩, hx⟩ := hall q (List.mem_cons_self _ _)
    have hstep : (app q.1 q.2 st).buckets key = some ⟨c + 1, x⟩ := by
      rw [app_buckets q.1 q.2 st hp, hk, hb, limiterStep_active c x _ hx]
      simp
    have := ih (app q.1 q.2 st) (c + 1) hstep
      (fun q' hq' => hall q' (List.mem_cons_of_mem _ hq'))
    simp only [serve, List.length_cons]
    rw [this]
    congr 2
    omega

/-- Verdict on a request that finds its bucket inside an active window. -/
theorem app_active (key : String) (c x : Nat) (st : St) (q : Env × Request)
    (hb : st.buckets key = some ⟨c, x⟩) (hq : onKey key q) (hx : q.1.now ≤ x) :
    (c < Max → (app q.1 q.2 st).trace =
        Event.limiterNext key :: Event.incr "visits" :: routeEvents q.1 q.2) ∧
    (Max ≤ c → (app q.1 q.2 st).trace = [Event.limitReached key] ∧
        (app q.1 q.2 st).resp = ⟨429, Body.json ⟨false, "You are being rate limited"⟩⟩ ∧
        (app q.1 q.2 st).visits = st.visits) := by
  obtain ⟨hk, hp⟩ := hq
  have hs := limiterStep_active c x _ hx
  rw [← hb, ← hk] at hs
  constructor
  · intro hc
    have hr : (limiterStep (st.buckets (KeyGenerator q.2)) q.1.now).2 = false := by
      rw [hs]; simp; omega
    rw [← hk]
    exact app_admitted q.1 q.2 st hp hr
  · intro hc
    have hr : (limiterStep (st.buckets (KeyGenerator q.2)) q.1.now).2 = true := by
      rw [hs]; simp; omega
    rw [← hk]
    exact app_rejected q.1 q.2 st hp hr

/-- Verdict on a request that finds no bucket or an expired one: a new window
starts and the request is admitted. -/
theorem app_new_window (key : String) (st : St) (q : Env × Request) (hq : onKey key q)
    (hb : st.buckets key = none ∨ ∃ b, st.buckets key = some b ∧ q.1.now > b.windowExpiry) :
    (app q.1 q.2 st).buckets key = some ⟨1, q.1.now + Expiration⟩ ∧
    (app q.1 q.2 st).trace =
        Event.limiterNext key :: Event.incr "visits" :: routeEvents q.1 q.2 := by
  obtain ⟨hk, hp⟩ := hq
  have hs : limiterStep (st.buckets (KeyGenerator q.2)) q.1.now =
      (⟨1, q.1.now + Expiration⟩, false) := by
    rw [hk]
    rcases hb with hb | ⟨b, hb, hgt⟩
    · rw [hb, limiterStep_none]
    · rw [hb, limiterStep_expired b _ hgt]
  constructor
  · rw [app_buckets q.1 q.2 st hp, hs, hk]; simp
  · rw [← hk]
    exact app_admitted q.1 q.2 st hp (by rw [hs])

/-- Requests on one key, all inside one interval of length `Expiration`,
served from a state with no bucket for the key: the request that comes after
`pre` is admitted when fewer than `Max` came before it and rejected with 429
otherwise. -/
theorem fresh_window (key : String) (st : St) (pre : List (Env × Request))
    (p : Env × Request) (t0 : Nat) (hfresh : st.buckets key = none)
    (hall : ∀ q ∈ pre ++ [p], onKey key q ∧ t0 ≤ q.1.now ∧ q.1.now ≤ t0 + Expiration) :
    (pre.length < Max → (app p.1 p.2 (serve st pre)).trace =
        Event.limiterNext key :: Event.incr "visits" :: routeEvents p.1 p.2) ∧
    (Max ≤ pre.length → (app p.1 p.2 (serve st pre)).trace = [Event.limitReached key] ∧
        (app p.1 p.2 (serve st pre)).resp =
          ⟨429, Body.json ⟨false, "You are being rate limited"⟩⟩ ∧
        (app p.1 p.2 (serve st pre)).visits = (serve st pre).visits) := by
  have hp := hall p (by simp)
  cases pre with
  | nil =>
    simp only [serve, List.length_nil]
    refine ⟨fun _ => (app_new_window key st p hp.1 (Or.inl hfresh)).2, fun h => ?_⟩
    simp [Max] at h
  | cons q0 rest =>
    have h0 := hall q0 (by simp)
    have hb0 := (app_new_window key st q0 h0.1 (Or.inl hfresh)).1
    have hrest : ∀ q ∈ rest, onKey key q ∧ q.1.now ≤ q0.1.now + Expiration := by
      intro q hq
      have := hall q (by simp [hq])
      exact ⟨this.1, by omega⟩
    have hb := serve_active key _ rest (app q0.1 q0.2 st) 1 hb0 hrest
    have hlen : (q0 :: rest).length = 1 + rest.length := by simp; omega
    have := app_active key (1 + rest.length) _ (serve (app q0.1 q0.2 st) rest) p hb hp.1
      (by omega)
    simpa only [serve, hlen] using this

/-- A burst of `n` requests, `n` at least 1, with `X-Forwarded-For: 1.2.3.4`
at clock reading 0 leaves the bucket at `n` hits, its window open until
second 30. -/
theorem burst_bucket (n : Nat) (hn : 0 < n) :
    (serve St.init (List.replicate n (sampleEnv, spoofedRequest))).buckets "1.2.3.4" =
      some ⟨n, 30 * Second⟩ := by
  obtain ⟨m, rfl⟩ : ∃ m, n = m + 1 := ⟨n - 1, by omega⟩
  have hk : onKey "1.2.3.4" (sampleEnv, spoofedRequest) := ⟨by decide, rfl⟩
  have h0 := (app_new_window "1.2.3.4" St.init (sampleEnv, spoofedRequest) hk (Or.inl rfl)).1
  have := serve_active "1.2.3.4" _ (List.replicate m (sampleEnv, spoofedRequest))
    (app sampleEnv spoofedRequest St.init) 1 h0
    (by
      intro q hq
      rw [(List.mem_replicate.mp hq).2]
      exact ⟨hk, Nat.le_add_left _ _⟩)
  rw [List.replicate_succ]
  simp only [serve]
  rw [this, List.length_replicate]
  simp [Expiration, sampleEnv, Nat.add_comm]

/-- The routes add no limiter event. -/
theorem routeEvents_no_limiter (env : Env) (req : Request) (key : String) :
    Event.limiterNext key ∉ routeEvents env req ∧ Event.limitReached key ∉ routeEvents env req := by
  unfold routeEvents
  cases env.matchRoute req <;> simp

/-! ## Lemmas on the key generator and the monitor -/

/-- A header name that no field carries reads as the empty string. -/
theorem GetReqHeaders_absent (req : Request) (name : String)
    (h : ∀ kv ∈ req.headers, kv.1 ≠ name) : GetReqHeaders req name = "" := by
  unfold GetReqHeaders
  suffices H : ∀ (l : List (String × String)) (m : String → String), m name = "" →
      (∀ kv ∈ l, kv.1 ≠ name) →
      l.foldl (fun m kv => Function.update m kv.1 kv.2) m name = "" from
    H req.headers _ rfl h
  intro l
  induction l with
  | nil => intro m hm _; simpa using hm
  | cons kv rest ih =>
    intro m hm hl
    simp only [List.foldl_cons]
    apply ih
    · have : name ≠ kv.1 := fun e => hl kv (List.mem_cons_self _ _) e.symm
      simp [Function.update_noteq this, hm]
    · intro kv' hkv'
      exact hl kv' (List.mem_cons_of_mem _ hkv')

/-- For a peer inside the trusted range the key is the resolver's identity. -/
theorem KeyGenerator_trusted (req : Request) (h : TrustedProxies req.peer = true) :
    KeyGenerator req = specCallerIdentity req := by
  simp [specCallerIdentity, KeyGenerator, h]

/-- The key does not depend on the peer address. -/
theorem KeyGenerator_peer (req : Request) (peer : IPv4) :
    KeyGenerator { req with peer := peer } = KeyGenerator req := rfl

/-- While probes succeed the loop goes on: one line and one probe per tick. -/
theorem ping_all_ok (pre : List (Option String)) :
    ∀ s : PingState, (∀ o ∈ pre, o = none) →
      ping pre s = { s with log := s.log ++ List.replicate pre.length "Pinging",
                            probes := s.probes + pre.length } := by
  induction pre with
  | nil => intro s _; simp [ping]
  | cons o rest ih =>
    intro s h
    have ho : o = none := h o (List.mem_cons_self _ _)
    subst ho
    simp only [ping]
    rw [ih _ (fun o ho => h o (List.mem_cons_of_mem _ ho))]
    simp [List.replicate_succ, Nat.add_assoc, Nat.add_comm 1]

/-- The loop splits at any tick. -/
theorem ping_append (pre rest : List (Option String)) :
    ∀ s : PingState, (∀ o ∈ pre, o = none) → ping (pre ++ rest) s = ping rest (ping pre s) := by
  induction pre with
  | nil => intro s _; simp [ping]
  | cons o pre ih =>
    intro s h
    have ho : o = none := h o (List.mem_cons_self _ _)
    subst ho
    simp only [List.cons_append, ping]
    exact ih _ (fun o ho => h o (List.mem_cons_of_mem _ ho))

/-! ## Caller identity -/

/-- C1, evaluated at a request the code can receive: the peer 203.0.113.7 lies
outside the trusted range 10.50.0.0/24 and the request carries
`X-Forwarded-For: 1.2.3.4`.  The resolver of the specification gives the peer
address; `KeyGenerator` gives the header value. -/
theorem KeyGenerator_spoofed_header :
    TrustedProxies spoofedRequest.peer = false ∧
    specCallerIdentity spoofedRequest = "203.0.113.7" ∧
    KeyGenerator spoofedRequest = "1.2.3.4" ∧
    KeyGenerator spoofedRequest ≠ specCallerIdentity spoofedRequest := by
  decide

/-! ## Fixed window -/

/-- C2: requests with one key that reach the limiter, all inside one interval
of 30 seconds, served from a state with no bucket for that key.  The request
that follows `pre` is the k-th with k = `pre.length + 1`: for k ≤ 500 the
limiter calls the next stage (the visit counter issues its `INCR`, the routes
follow); for k = 501 it calls nothing further and the answer is 429 with body
`{Success: false, Message: "You are being rate limited"}`. -/
theorem limiter_fresh_window (key : String) (st : St) (pre : List (Env × Request))
    (p : Env × Request) (t0 : Nat) (hfresh : st.buckets key = none)
    (hall : ∀ q ∈ pre ++ [p], (KeyGenerator q.2 = key ∧ q.1.preflight q.2 = false) ∧
      t0 ≤ q.1.now ∧ q.1.now ≤ t0 + 30 * Second) :
    (pre.length + 1 ≤ 500 →
      (app p.1 p.2 (serve st pre)).trace =
        Event.limiterNext key :: Event.incr "visits" :: routeEvents p.1 p.2) ∧
    (pre.length + 1 = 501 →
      (app p.1 p.2 (serve st pre)).trace = [Event.limitReached key] ∧
      (app p.1 p.2 (serve st pre)).resp =
        ⟨429, Body.json ⟨false, "You are being rate limited"⟩⟩) := by
  have h := fresh_window key st pre p t0 hfresh hall
  refine ⟨fun hk => h.1 (by simp only [Max]; omega), fun hk => ?_⟩
  have := h.2 (by simp only [Max]; omega)
  exact ⟨this.1, this.2.1⟩

/-- Witness of C2: 501 requests with `X-Forwarded-For: 1.2.3.4` at clock
reading 0, from the initial state; the 501st is answered 429. -/
theorem limiter_fresh_window_witness :
    St.init.buckets "1.2.3.4" = none ∧
    (∀ q ∈ List.replicate 500 (sampleEnv, spoofedRequest) ++ [(sampleEnv, spoofedRequest)],
      (KeyGenerator q.2 = "1.2.3.4" ∧ q.1.preflight q.2 = false) ∧
      0 ≤ q.1.now ∧ q.1.now ≤ 0 + 30 * Second) ∧
    (app sampleEnv spoofedRequest
        (serve St.init (List.replicate 500 (sampleEnv, spoofedRequest)))).resp =
      ⟨429, Body.json ⟨false, "You are being rate limited"⟩⟩ := by
  have hall : ∀ q ∈ List.replicate 500 (sampleEnv, spoofedRequest) ++
      [(sampleEnv, spoofedRequest)],
      (KeyGenerator q.2 = "1.2.3.4" ∧ q.1.preflight q.2 = false) ∧
      0 ≤ q.1.now ∧ q.1.now ≤ 0 + 30 * Second := by
    intro q hq
    have hq' : q = (sampleEnv, spoofedRequest) := by
      rcases List.mem_append.mp hq with h | h
      · exact (List.mem_replicate.mp h).2
      · simpa using h
    subst hq'
    exact ⟨⟨by decide, rfl⟩, by decide, by decide⟩
  exact ⟨rfl, hall,
    ((limiter_fresh_window "1.2.3.4" St.init _ (sampleEnv, spoofedRequest) 0 rfl hall).2
      (by rw [List.length_replicate])).2⟩

/-- C3: a request with key `key` that reaches the limiter at a time later
than the expiry of the key's bucket, whatever the bucket's count: the bucket
it leaves has count 1 (zero, then the increment) and expiry `now + 30s`, the
request is passed on, and so is each of the next 499 requests with that key
inside the new window (`post` holds those before `q`, fewer than 499). -/
theorem limiter_expired_window (key : String) (st : St) (b : Bucket) (p : Env × Request)
    (post : List (Env × Request)) (q : Env × Request)
    (hb : st.buckets key = some b) (hexp : p.1.now > b.windowExpiry)
    (hp : KeyGenerator p.2 = key ∧ p.1.preflight p.2 = false)
    (hall : ∀ r ∈ post ++ [q], (KeyGenerator r.2 = key ∧ r.1.preflight r.2 = false) ∧
      p.1.now ≤ r.1.now ∧ r.1.now ≤ p.1.now + 30 * Second)
    (hlen : post.length < 499) :
    limiterStep (some b) p.1.now = (⟨0 + 1, p.1.now + 30 * Second⟩, false) ∧
    (app p.1 p.2 st).buckets key = some ⟨1, p.1.now + 30 * Second⟩ ∧
    (app p.1 p.2 st).trace =
      Event.limiterNext key :: Event.incr "visits" :: routeEvents p.1 p.2 ∧
    (app q.1 q.2 (serve (app p.1 p.2 st) post)).trace =
      Event.limiterNext key :: Event.incr "visits" :: routeEvents q.1 q.2 := by
  have hnew := app_new_window key st p hp (Or.inr ⟨b, hb, hexp⟩)
  refine ⟨limiterStep_expired b _ hexp, hnew.1, hnew.2, ?_⟩
  have hpost : ∀ r ∈ post, onKey key r ∧ r.1.now ≤ p.1.now + Expiration := by
    intro r hr
    have := hall r (by simp [hr])
    exact ⟨this.1, this.2.2⟩
  have hbk := serve_active key _ post (app p.1 p.2 st) 1 hnew.1 hpost
  have hq := hall q (by simp)
  exact (app_active key (1 + post.length) _ _ q hbk hq.1 hq.2.2).1
    (by simp only [Max]; omega)

/-- Witness of C3: a bucket at 700 hits whose window ended at second 30, and
two requests at second 31. -/
theorem limiter_expired_window_witness :
    staleState.buckets "1.2.3.4" = some ⟨700, 30 * Second⟩ ∧
    (sampleEnvAt (31 * Second)).now > (⟨700, 30 * Second⟩ : Bucket).windowExpiry ∧
    (app (sampleEnvAt (31 * Second)) spoofedRequest staleState).buckets "1.2.3.4" =
      some ⟨1, 31 * Second + 30 * Second⟩ ∧
    (app (sampleEnvAt (31 * Second)) spoofedRequest
        (serve (app (sampleEnvAt (31 * Second)) spoofedRequest staleState) [])).trace =
      Event.limiterNext "1.2.3.4" :: Event.incr "visits" ::
        routeEvents (sampleEnvAt (31 * Second)) spoofedRequest := by
  have hb : staleState.buckets "1.2.3.4" = some ⟨700, 30 * Second⟩ := by decide
  have hexp : (sampleEnvAt (31 * Second)).now > (⟨700, 30 * Second⟩ : Bucket).windowExpiry := by
    decide
  have h := limiter_expired_window "1.2.3.4" staleState ⟨700, 30 * Second⟩
    (sampleEnvAt (31 * Second), spoofedRequest) [] (sampleEnvAt (31 * Second), spoofedRequest)
    hb hexp ⟨by decide, rfl⟩
    (by
      intro r hr
      have hr' : r = (sampleEnvAt (31 * Second), spoofedRequest) := by simpa using hr
      subst hr'
      exact ⟨⟨by decide, rfl⟩, Nat.le_refl _, Nat.le_add_right _ _⟩)
    (by decide)
  exact ⟨hb, hexp, h.2.1, h.2.2.2⟩

/-- C10: requests without an `X-Forwarded-For` field get the empty string as
key whatever their peer address, so they share the bucket of "": after 500 of
them inside one window, from a state with no bucket for "", the next one
inside that window, from whichever peer, is answered 429 and not passed on. -/
theorem headerless_requests_share_bucket (st : St) (pre : List (Env × Request))
    (p : Env × Request) (t0 : Nat) (hfresh : st.buckets "" = none)
    (hall : ∀ q ∈ pre ++ [p], (∀ kv ∈ q.2.headers, kv.1 ≠ "X-Forwarded-For") ∧
      q.1.preflight q.2 = false ∧ t0 ≤ q.1.now ∧ q.1.now ≤ t0 + 30 * Second)
    (hlen : pre.length = 500) :
    (∀ q ∈ pre ++ [p], KeyGenerator q.2 = "") ∧
    (app p.1 p.2 (serve st pre)).trace = [Event.limitReached ""] ∧
    (app p.1 p.2 (serve st pre)).resp =
      ⟨429, Body.json ⟨false, "You are being rate limited"⟩⟩ := by
  have hkey : ∀ q ∈ pre ++ [p], KeyGenerator q.2 = "" := fun q hq =>
    GetReqHeaders_absent q.2 _ (hall q hq).1
  have h := fresh_window "" st pre p t0 hfresh
    (fun q hq => ⟨⟨hkey q hq, (hall q hq).2.1⟩, (hall q hq).2.2⟩)
  have := h.2 (by simp only [Max]; omega)
  exact ⟨hkey, this.1, this.2.1⟩

/-- Witness of C10: 500 header-less requests from 198.51.100.1, then one from
192.0.2.9. -/
theorem headerless_requests_share_bucket_witness :
    (plainRequest ⟨198, 51, 100, 1⟩).peer ≠ (plainRequest ⟨192, 0, 2, 9⟩).peer ∧
    KeyGenerator (plainRequest ⟨198, 51, 100, 1⟩) = KeyGenerator (plainRequest ⟨192, 0, 2, 9⟩) ∧
    (app sampleEnv (plainRequest ⟨192, 0, 2, 9⟩)
        (serve St.init (List.replicate 500 (sampleEnv, plainRequest ⟨198, 51, 100, 1⟩)))).resp =
      ⟨429, Body.json ⟨false, "You are being rate limited"⟩⟩ := by
  have hall : ∀ q ∈ List.replicate 500 (sampleEnv, plainRequest ⟨198, 51, 100, 1⟩) ++
      [(sampleEnv, plainRequest ⟨192, 0, 2, 9⟩)],
      (∀ kv ∈ q.2.headers, kv.1 ≠ "X-Forwarded-For") ∧
      q.1.preflight q.2 = false ∧ 0 ≤ q.1.now ∧ q.1.now ≤ 0 + 30 * Second := by
    intro q hq
    have hq' : q = (sampleEnv, plainRequest ⟨198, 51, 100, 1⟩) ∨
        q = (sampleEnv, plainRequest ⟨192, 0, 2, 9⟩) := by
      rcases List.mem_append.mp hq with h | h
      · exact Or.inl (List.mem_replicate.mp h).2
      · exact Or.inr (by simpa using h)
    rcases hq' with hq' | hq' <;> subst hq' <;>
      exact ⟨by decide, rfl, by decide, by decide⟩
  have h := headerless_requests_share_bucket St.init _ (sampleEnv, plainRequest ⟨192, 0, 2, 9⟩) 0
    rfl hall (List.length_replicate _ _)
  exact ⟨by decide, by decide, h.2.2⟩

/-! ## Liveness monitor -/

/-- C6: probe outcomes `pre`, all successes, then a failure `e`, then any
outcomes `post`.  While only the successes have come in the process is alive
with one probe per tick; at the failure it exits with status 1, after exactly
`pre.length + 1` probes, and the outcomes after the failure change nothing:
one failure is enough, none is retried, none follows. -/
theorem ping_exits_at_first_failure (pre post : List (Option String)) (e : String)
    (hpre : ∀ o ∈ pre, o = none) :
    (ping pre PingState.init).exited = none ∧
    (ping pre PingState.init).probes = pre.length ∧
    (ping (pre ++ some e :: post) PingState.init).exited = some 1 ∧
    (ping (pre ++ some e :: post) PingState.init).probes = pre.length + 1 ∧
    (ping (pre ++ some e :: post) PingState.init).log =
      List.replicate (pre.length + 1) "Pinging" ++ [e] ∧
    ping (pre ++ some e :: post) PingState.init = ping (pre ++ [some e]) PingState.init := by
  have h1 := ping_all_ok pre PingState.init hpre
  have h2 := ping_append pre (some e :: post) PingState.init hpre
  have h3 := ping_append pre [some e] PingState.init hpre
  rw [h2, h3, h1]
  simp [ping, PingState.init, List.replicate_succ']

/-- Witness of C6: two good probes, a failure, then outcomes never looked at. -/
theorem ping_exits_at_first_failure_witness :
    (∀ o ∈ [none, none], o = (none : Option String)) ∧
    (ping ([none, none] ++ some "connection refused" :: [none, some "x"]) PingState.init).exited =
      some 1 ∧
    (ping ([none, none] ++ some "connection refused" :: [none, some "x"]) PingState.init).probes =
      3 := by
  have h := ping_exits_at_first_failure [none, none] [none, some "x"] "connection refused"
    (by decide)
  exact ⟨by decide, h.2.2.1, h.2.2.2.1⟩

/-! ## Visit counter -/

/-- The three ways a request goes through the chain. -/
theorem app_cases (env : Env) (req : Request) (st : St) :
    (app env req st).trace = [] ∨
    ((app env req st).trace = [Event.limitReached (KeyGenerator req)] ∧
      (app env req st).visits = st.visits) ∨
    (app env req st).trace =
      Event.limiterNext (KeyGenerator req) :: Event.incr "visits" :: routeEvents env req := by
  cases hp : env.preflight req with
  | true => exact Or.inl (app_preflight env req st hp).2
  | false =>
    cases hr : (limiterStep (st.buckets (KeyGenerator req)) env.now).2 with
    | true =>
      have := app_rejected env req st hp hr
      exact Or.inr (Or.inl ⟨this.1, this.2.2⟩)
    | false => exact Or.inr (Or.inr (app_admitted env req st hp hr))

/-- C4: while one request is handled, `INCR visits` is issued exactly once if
the limiter passes the request on (with or without a matching route) and not
at all if the limiter answers it with `LimitReached`; in that case no route
handler is called either and the counter keeps its value.  For a request that
reaches the limiter, which of the two happens is the verdict of the step on
the bucket of its key. -/
theorem visits_incr_once_per_admitted (env : Env) (req : Request) (st : St) :
    ((∃ k, Event.limiterNext k ∈ (app env req st).trace) →
      (app env req st).trace.count (Event.incr "visits") = 1) ∧
    ((∃ k, Event.limitReached k ∈ (app env req st).trace) →
      (app env req st).trace.count (Event.incr "visits") = 0 ∧
      (∀ r, Event.route r ∉ (app env req st).trace) ∧
      (app env req st).visits = st.visits) ∧
    (env.preflight req = false →
      ((limiterStep (st.buckets (KeyGenerator req)) env.now).2 = false ↔
        ∃ k, Event.limiterNext k ∈ (app env req st).trace) ∧
      ((limiterStep (st.buckets (KeyGenerator req)) env.now).2 = true ↔
        ∃ k, Event.limitReached k ∈ (app env req st).trace)) := by
  refine ⟨?_, ?_, ?_⟩
  · rcases app_cases env req st with h | ⟨h, _⟩ | h
    · simp [h]
    · simp [h]
    · intro _
      rw [h]
      unfold routeEvents
      cases env.matchRoute req <;> simp
  · rcases app_cases env req st with h | ⟨h, hv⟩ | h
    · simp [h]
    · simp [h, hv]
    · rw [h]
      unfold routeEvents
      cases env.matchRoute req <;> simp
  · intro hp
    have hr := routeEvents_no_limiter env req
    cases hv : (limiterStep (st.buckets (KeyGenerator req)) env.now).2 with
    | true => simp [(app_rejected env req st hp hv).1]
    | false => simp [app_admitted env req st hp hv, hr]

/-- Witness of C4: the first request of a burst is passed on, with one
`INCR`; the 501st is rejected, with none. -/
theorem visits_incr_once_per_admitted_witness :
    (∃ k, Event.limiterNext k ∈ (app sampleEnv spoofedRequest St.init).trace) ∧
    (app sampleEnv spoofedRequest St.init).trace.count (Event.incr "visits") = 1 ∧
    (∃ k, Event.limitReached k ∈ (app sampleEnv spoofedRequest
      (serve St.init (List.replicate 500 (sampleEnv, spoofedRequest)))).trace) ∧
    (app sampleEnv spoofedRequest
      (serve St.init (List.replicate 500 (sampleEnv, spoofedRequest)))).trace.count
        (Event.incr "visits") = 0 := by
  have hex : ∃ k, Event.limiterNext k ∈ (app sampleEnv spoofedRequest St.init).trace :=
    ⟨"1.2.3.4", by decide⟩
  have hb := burst_bucket 500 (by decide)
  have hrej := ((app_active "1.2.3.4" 500 _ _ (sampleEnv, spoofedRequest) hb
    ⟨by decide, rfl⟩ (by decide)).2 (by decide)).1
  have hex' : ∃ k, Event.limitReached k ∈ (app sampleEnv spoofedRequest
      (serve St.init (List.replicate 500 (sampleEnv, spoofedRequest)))).trace :=
    ⟨"1.2.3.4", by rw [hrej]; exact List.mem_singleton.mpr rfl⟩
  exact ⟨hex, (visits_incr_once_per_admitted sampleEnv spoofedRequest St.init).1 hex, hex',
    ((visits_incr_once_per_admitted sampleEnv spoofedRequest _).2.1 hex').1⟩

/-- The routes read neither the store's answer nor what the store holds. -/
theorem router_agree (env : Env) (e : String) (req : Request) (s s' : St) (h : agree s s') :
    agreeOut (router { env with incrErr := some e } req s)
      (router { env with incrErr := none } req s') := by
  obtain ⟨h1, h2, h3, h4, h5⟩ := h
  unfold router agreeOut agree
  simp only []
  cases env.matchRoute req with
  | none => simp [h1, h2, h3, h4, h5]
  | some r =>
    cases r <;> simp [h1, h2, h3, h4, h5] <;> cases env.provider _ req <;>
      simp [h1, h2, h3, h4, h5]

/-- The visit counter with a failing `INCR` and with a succeeding one end in
agreeing states with the same outcome. -/
theorem afterLimiter_agree (env : Env) (e : String) (req : Request) (s s' : St)
    (h : agree s s') :
    agreeOut (afterLimiter { env with incrErr := some e } req s)
      (afterLimiter { env with incrErr := none } req s') := by
  unfold afterLimiter visitMW
  simp only []
  apply router_agree
  obtain ⟨h1, h2, h3, h4, h5⟩ := h
  exact ⟨h1, by simp [h2], h3, h4, h5⟩

/-- The stages from CORS down, under the two answers of the store. -/
theorem afterLogger_agree (env : Env) (e : String) (req : Request) (s s' : St)
    (h : agree s s') :
    agreeOut (afterLogger { env with incrErr := some e } req s)
      (afterLogger { env with incrErr := none } req s') := by
  have hb : s.buckets = s'.buckets := h.2.2.1
  unfold afterLogger corsMW limiterMW
  simp only []
  cases env.preflight req with
  | true =>
    obtain ⟨h1, h2, h3, h4, h5⟩ := h
    simp [agreeOut, agree, h2, h3, h4, h5]
  | false =>
    simp only [Bool.false_eq_true, if_false]
    rw [hb]
    cases (limiterStep (s'.buckets (KeyGenerator req)) env.now).2 with
    | true =>
      obtain ⟨h1, h2, h3, h4, h5⟩ := h
      simp [agreeOut, agree, LimitReached, h2, h4, h5]
    | false =>
      simp only [Bool.false_eq_true, if_false]
      apply afterLimiter_agree
      obtain ⟨h1, h2, h3, h4, h5⟩ := h
      exact ⟨h1, by simp [h2], by simp, h4, h5⟩

/-- The whole app under the two answers of the store. -/
theorem app_agree (env : Env) (e : String) (req : Request) (st : St) :
    agree (app { env with incrErr := some e } req st) (app { env with incrErr := none } req st) := by
  have h := afterLogger_agree env e req st.fresh st.fresh ⟨rfl, rfl, rfl, rfl, rfl⟩
  rcases hF : afterLogger { env with incrErr := some e } req st.fresh with ⟨oF, sF⟩
  rcases hS : afterLogger { env with incrErr := none } req st.fresh with ⟨oS, sS⟩
  rw [hF, hS] at h
  obtain ⟨ho, h1, h2, h3, h4, h5⟩ := h
  simp only at ho h1 h2 h3 h4 h5
  subst ho
  cases oF with
  | returned chainErr =>
    rw [app_of_returned _ req st chainErr sF hF, app_of_returned _ req st chainErr sS hS]
    cases chainErr with
    | none => simp [agree, h1, h2, h3, h4, h5]
    | some err => cases err <;> simp [agree, errorHandler, h2, h3, h4, h5]
  | panicked v =>
    rw [app_of_panicked _ req st v sF hF, app_of_panicked _ req st v sS hS]
    simp [agree, errorHandler, h2, h3, h4, h5]

/-- C5: the reply (status and body) to a request is the same whether the
`INCR` on "visits" returns an error or succeeds, and so are the access log
and the buckets; the visit counter calls the next handler in both cases and
returns what it returns, and on an error the only thing it does besides is
print the error. -/
theorem visit_counter_error_not_visible (env : Env) (e : String) (req : Request) (st : St) :
    (app { env with incrErr := some e } req st).resp =
      (app { env with incrErr := none } req st).resp ∧
    (app { env with incrErr := some e } req st).accessLog =
      (app { env with incrErr := none } req st).accessLog ∧
    (∀ next : Handler, visitMW next { env with incrErr := some e } req st =
      next { env with incrErr := some e } req
        { st with trace := st.trace ++ [Event.incr "visits"], stderr := st.stderr ++ [e] }) ∧
    (∀ next : Handler, visitMW next { env with incrErr := none } req st =
      next { env with incrErr := none } req
        { st with trace := st.trace ++ [Event.incr "visits"], visits := st.visits + 1 }) := by
  have h := app_agree env e req st
  exact ⟨h.1, h.2.2.2.1, fun _ => rfl, fun _ => rfl⟩

/-! ## Panic isolation and access log -/

/-- The stages from CORS down write nothing to the access log. -/
theorem afterLogger_accessLog (env : Env) (req : Request) (st : St) :
    (afterLogger env req st).2.accessLog = st.accessLog ∧
    (afterLogger env req st).2.crashed = st.crashed := by
  unfold afterLogger corsMW
  cases env.preflight req with
  | true => simp
  | false =>
    simp only [Bool.false_eq_true, if_false]
    cases hr : (limiterStep (st.buckets (KeyGenerator req)) env.now).2 with
    | true => rw [limiterMW_rejects env req st _ hr]; simp
    | false =>
      rw [limiterMW_passes env req st _ hr]
      have := afterLimiter_frame env req
        { st with
          trace := st.trace ++ [Event.limiterNext (KeyGenerator req)]
          buckets := Function.update st.buckets (KeyGenerator req)
            (some (limiterStep (st.buckets (KeyGenerator req)) env.now).1) }
      exact ⟨this.2.2.1, this.2.2.2⟩

/-- C7 as stated fails: with a `v1.GetCapyFact` that panics, the chain under
the logger panics, and the request leaves no access record (the claim asks
for one); the reply is 500 and the process lives. -/
theorem panic_leaves_no_access_record :
    (afterLogger panicEnv spoofedRequest St.init.fresh).1 = Outcome.panicked "boom" ∧
    (app panicEnv spoofedRequest St.init).accessLog = [] ∧
    (app panicEnv spoofedRequest St.init).accessLog.length ≠ St.init.accessLog.length + 1 ∧
    (app panicEnv spoofedRequest St.init).resp = ⟨500, Body.text "boom"⟩ ∧
    (app sampleEnv spoofedRequest St.init).accessLog.length = St.init.accessLog.length + 1 := by
  decide

/-- C7 amended: when the handling under the logger panics with value `v`, the
panic unwinds through the logger, which writes no access record; the recover
stage turns it into an error, so the chain returns and the process lives; the
reply is 500 with the panic's text as body, and recover prints the panic. -/
theorem panic_recovered_not_logged (env : Env) (req : Request) (st s : St) (v : String)
    (h : afterLogger env req st.fresh = (Outcome.panicked v, s)) :
    (app env req st).accessLog = st.accessLog ∧
    (app env req st).resp = ⟨500, Body.text v⟩ ∧
    (pipeline env req st.fresh).1 = Outcome.returned (some (Err.other v)) ∧
    (app env req st).crashed = st.crashed ∧
    (app env req st).stderr = s.stderr ++ ["panic: " ++ v] := by
  have hf := afterLogger_accessLog env req st.fresh
  rw [h] at hf
  rw [app_of_panicked env req st v s h]
  refine ⟨by simpa [St.fresh] using hf.1, by simp [errorHandler, Err.msg], ?_,
    by simpa [St.fresh] using hf.2, by simp⟩
  simp [pipeline, recoverMW, loggerMW, h]

/-- Witness of the amended C7: the panicking `v1.GetCapyFact`. -/
theorem panic_recovered_not_logged_witness :
    afterLogger panicEnv spoofedRequest St.init.fresh =
      (Outcome.panicked "boom", (afterLogger panicEnv spoofedRequest St.init.fresh).2) ∧
    (app panicEnv spoofedRequest St.init).accessLog = St.init.accessLog ∧
    (app panicEnv spoofedRequest St.init).resp = ⟨500, Body.text "boom"⟩ := by
  have h : afterLogger panicEnv spoofedRequest St.init.fresh =
      (Outcome.panicked "boom", (afterLogger panicEnv spoofedRequest St.init.fresh).2) :=
    Prod.ext (by decide) rfl
  have := panic_recovered_not_logged panicEnv spoofedRequest St.init _ "boom" h
  exact ⟨h, this.1, this.2.1⟩

/-! ## Bucket count -/

/-- One handled request keeps the tally tied to the bucket. -/
theorem tallyInv_step (key : String) (st : St) (t : Tally) (p : Env × Request)
    (h : tallyInv key st t) :
    tallyInv key (app p.1 p.2 st) (tallyStep key t st (app p.1 p.2 st)) := by
  cases hp : p.1.preflight p.2 with
  | true =>
    obtain ⟨hb, ht⟩ := app_preflight p.1 p.2 st hp
    have : tallyStep key t st (app p.1 p.2 st) = t := by simp [tallyStep, ht]
    rw [this]
    unfold tallyInv at h ⊢
    rw [hb]
    exact h
  | false =>
    by_cases hk : KeyGenerator p.2 = key
    · cases hb : st.buckets key with
      | none =>
        obtain ⟨hb', ht⟩ := app_new_window key st p ⟨hk, hp⟩ (Or.inl hb)
        unfold tallyInv
        rw [hb']
        simp [tallyStep, ht, hb, sameWindow, Max]
      | some b =>
        by_cases hx : p.1.now > b.windowExpiry
        · obtain ⟨hb', ht⟩ := app_new_window key st p ⟨hk, hp⟩ (Or.inr ⟨b, hb, hx⟩)
          have hne : ¬ b.windowExpiry = p.1.now + Expiration := by omega
          unfold tallyInv
          rw [hb']
          simp [tallyStep, ht, hb, hb', sameWindow, Max, hne]
        · obtain ⟨c, x⟩ := b
          have hx' : p.1.now ≤ x := Nat.not_lt.mp hx
          have hact := app_active key c x st p hb ⟨hk, hp⟩ hx'
          have hb' : (app p.1 p.2 st).buckets key = some ⟨c + 1, x⟩ := by
            rw [app_buckets p.1 p.2 st hp, hk, hb, limiterStep_active c x _ hx']
            simp
          unfold tallyInv at h ⊢
          rw [hb] at h
          rw [hb']
          obtain ⟨h1, h2⟩ := h
          simp only at h1 h2
          by_cases hc : c < Max
          · have ht := hact.1 hc
            simp only [tallyStep, ht, hb, hb', sameWindow, List.mem_cons, true_or, if_true,
              beq_self_eq_true]
            simp only [Max] at hc h2 ⊢
            omega
          · have ht := (hact.2 (Nat.not_lt.mp hc)).1
            simp only [tallyStep, ht, hb, hb', sameWindow, if_true, beq_self_eq_true,
              List.mem_singleton, reduceCtorEq, if_false]
            simp only [Max] at hc h2 ⊢
            omega
    · have hb : (app p.1 p.2 st).buckets key = st.buckets key := by
        rw [app_buckets p.1 p.2 st hp]
        exact Function.update_noteq (fun e => hk e.symm) _ _
      have hne : ¬ key = KeyGenerator p.2 := fun e => hk e.symm
      have hr := routeEvents_no_limiter p.1 p.2 key
      have : tallyStep key t st (app p.1 p.2 st) = t := by
        rcases app_cases p.1 p.2 st with ht | ⟨ht, _⟩ | ht <;>
          simp [tallyStep, ht, hne, hr.1, hr.2]
      rw [this]
      unfold tallyInv at h ⊢
      rw [hb]
      exact h

/-- The tally stays tied to the bucket along every run. -/
theorem tallyInv_serve (key : String) (reqs : List (Env × Request)) :
    ∀ (st : St) (t : Tally), tallyInv key st t →
      tallyInv key (serve st reqs) (tally key st t reqs) := by
  induction reqs with
  | nil => intro st t h; simpa [serve, tally] using h
  | cons p rest ih =>
    intro st t h
    simp only [serve, tally]
    exact ih _ _ (tallyInv_step key st t p h)

/-- C8 as stated fails: after 501 requests with one key at clock reading 0 the
bucket of that key holds count 501 while its window is open (until second
30). -/
theorem count_exceeds_max_in_window :
    (serve St.init (List.replicate 501 (sampleEnv, spoofedRequest))).buckets "1.2.3.4" =
      some ⟨501, 30 * Second⟩ ∧
    sampleEnv.now ≤ (⟨501, 30 * Second⟩ : Bucket).windowExpiry ∧
    ¬ (⟨501, 30 * Second⟩ : Bucket).count ≤ 500 :=
  ⟨burst_bucket 501 (by decide), by decide, by decide⟩

/-- C8 amended: in every state reached from the initial one by handling
requests, the count of every bucket is the number of requests the limiter
passed on plus the number it rejected since the bucket's window began, and
the number passed on is the count capped at 500: at most 500 requests are
admitted per window, while the count itself goes above 500 with every
rejected request. -/
theorem count_is_admitted_plus_rejected (reqs : List (Env × Request)) (key : String)
    (b : Bucket) (hb : (serve St.init reqs).buckets key = some b) :
    b.count = (tally key St.init ⟨0, 0⟩ reqs).admitted + (tally key St.init ⟨0, 0⟩ reqs).rejected ∧
    (tally key St.init ⟨0, 0⟩ reqs).admitted = min b.count 500 ∧
    (tally key St.init ⟨0, 0⟩ reqs).admitted ≤ 500 := by
  have h := tallyInv_serve key reqs St.init ⟨0, 0⟩ (by simp [tallyInv, St.init])
  unfold tallyInv at h
  rw [hb] at h
  simp only [Max] at h
  exact ⟨h.1, h.2, by omega⟩

/-- Witness of the amended C8: the burst of 501 requests; 500 admitted, one
rejected. -/
theorem count_is_admitted_plus_rejected_witness :
    (serve St.init (List.replicate 501 (sampleEnv, spoofedRequest))).buckets "1.2.3.4" =
      some ⟨501, 30 * Second⟩ ∧
    (tally "1.2.3.4" St.init ⟨0, 0⟩
      (List.replicate 501 (sampleEnv, spoofedRequest))).admitted = min 501 500 :=
  ⟨burst_bucket 501 (by decide),
    (count_is_admitted_plus_rejected (List.replicate 501 (sampleEnv, spoofedRequest)) "1.2.3.4"
      ⟨501, 30 * Second⟩ (burst_bucket 501 (by decide))).2.1⟩

end Capybara
